import Mathlib

/-
Verification development for the EchoWarp repository (lHumaNl/EchoWarp).

Shallow embedding of the core components referenced by the specification:
  * src/echowarp/models/ban_list.py          (ClientStatus, BanList)
  * src/echowarp/models/json_message.py      (JSONMessage codec)
  * src/echowarp/services/crypto_manager.py  (seal/open pipeline)
  * src/echowarp/auth_and_heartbeat/transport_base.py   (ports, reconnect loop)
  * src/echowarp/auth_and_heartbeat/transport_server.py (bind port, auth order)

Machine integers do not overflow in any of the embedded code paths (all Python
ints), so counters are modelled as Nat.  Byte strings are lists of Nat.
Fallible code returns Option.
-/

namespace EchoWarp

/-! ## Ban/Retry Ledger — src/echowarp/models/ban_list.py

`ClientStatus.__init__(self, is_banned, reconnect_attempts)` and the mutating
methods become pure state transformers.  The Python `dict` of `BanList` is an
insertion-ordered association list with unique keys. -/

structure ClientStatus where
  reconnect_attempts : Nat
  is_banned : Bool
  is_first_time_message : Bool
  failed_connect_attempts : Nat
  all_failed_connect_attempts : Nat
  success_connect_attempts : Nat
  deriving Repr, DecidableEq

/-- `ClientStatus.__init__`: banned entries start with both failure counters
at `reconnect_attempts`, fresh entries at 0. -/
def mkClientStatus (is_banned : Bool) (reconnect_attempts : Nat) : ClientStatus :=
  ⟨reconnect_attempts, is_banned, true,
    if is_banned then reconnect_attempts else 0,
    if is_banned then reconnect_attempts else 0,
    0⟩

/-- `ClientStatus.success_connect_attempt`. -/
def ClientStatus.success_connect_attempt (s : ClientStatus) : ClientStatus :=
  { s with failed_connect_attempts := 0,
           success_connect_attempts := s.success_connect_attempts + 1,
           is_banned := false,
           is_first_time_message := true }

/-- `ClientStatus.fail_connect_attempt`.  The Python chained comparison
`failed >= reconnect_attempts > 0` is the conjunction of both comparisons. -/
def ClientStatus.fail_connect_attempt (s : ClientStatus) : ClientStatus :=
  let s1 := if s.is_banned then s
            else { s with failed_connect_attempts := s.failed_connect_attempts + 1,
                          all_failed_connect_attempts := s.all_failed_connect_attempts + 1 }
  if s1.reconnect_attempts ≤ s1.failed_connect_attempts ∧ 0 < s1.reconnect_attempts then
    { s1 with is_banned := true }
  else s1

/-- `ClientStatus.is_first_time_message`: a read-once flag; returns the value
and the mutated state. -/
def ClientStatus.read_first_time_message (s : ClientStatus) : Bool × ClientStatus :=
  if s.is_first_time_message then (true, { s with is_first_time_message := false })
  else (false, s)

/-- The operations a ledger entry undergoes after creation. -/
inductive EntryOp where
  | fail
  | success
  | firstTime
  deriving Repr, DecidableEq

def applyEntryOp (s : ClientStatus) (op : EntryOp) : ClientStatus :=
  match op with
  | .fail => s.fail_connect_attempt
  | .success => s.success_connect_attempt
  | .firstTime => s.read_first_time_message.2

def applyEntryOps (s : ClientStatus) (ops : List EntryOp) : ClientStatus :=
  ops.foldl applyEntryOp s

/-- The spec's ledger invariant: `banned ⇔ (R>0 ∧ consecutive_failures ≥ R)`. -/
def banInvariant (s : ClientStatus) : Prop :=
  s.is_banned = true ↔
    (0 < s.reconnect_attempts ∧ s.reconnect_attempts ≤ s.failed_connect_attempts)

theorem applyEntryOp_reconnect_attempts (s : ClientStatus) (op : EntryOp) :
    (applyEntryOp s op).reconnect_attempts = s.reconnect_attempts := by
  cases op
  · simp only [applyEntryOp, ClientStatus.fail_connect_attempt]
    split_ifs <;> rfl
  · rfl
  · simp only [applyEntryOp, ClientStatus.read_first_time_message]
    split_ifs <;> rfl

theorem banInvariant_applyEntryOp (s : ClientStatus) (op : EntryOp)
    (h : banInvariant s) : banInvariant (applyEntryOp s op) := by
  cases op
  · simp only [applyEntryOp, ClientStatus.fail_connect_attempt] at *
    by_cases hb : s.is_banned <;> simp [hb, banInvariant] at h ⊢ <;> split <;>
      simp_all [banInvariant] <;> omega
  · simp [applyEntryOp, ClientStatus.success_connect_attempt, banInvariant] at h ⊢
    omega
  · simp only [applyEntryOp, ClientStatus.read_first_time_message] at *
    split <;> simp_all [banInvariant]

theorem banInvariant_applyEntryOps (s : ClientStatus) (ops : List EntryOp)
    (h : banInvariant s) : banInvariant (applyEntryOps s ops) := by
  induction ops generalizing s with
  | nil => exact h
  | cons op ops ih =>
    exact ih _ (banInvariant_applyEntryOp s op h)

theorem applyEntryOps_reconnect_attempts (s : ClientStatus) (ops : List EntryOp) :
    (applyEntryOps s ops).reconnect_attempts = s.reconnect_attempts := by
  induction ops generalizing s with
  | nil => rfl
  | cons op ops ih =>
    simpa [applyEntryOps, applyEntryOp_reconnect_attempts] using
      (ih (applyEntryOp s op)).trans (applyEntryOp_reconnect_attempts s op)

theorem banInvariant_mkClientStatus (is_banned : Bool) (R : Nat)
    (h : is_banned = true → 0 < R) : banInvariant (mkClientStatus is_banned R) := by
  cases is_banned <;> simp_all [banInvariant, mkClientStatus] <;> omega

/-! ### BanList — the per-IP dictionary

Client IPs are strings of characters; the Python `dict` is an
insertion-ordered association list (keys unique by construction, since the
only inserting operations guard on membership). -/

abbrev Ip := List Char

def lookupClient (l : List (Ip × ClientStatus)) (ip : Ip) : Option ClientStatus :=
  (l.find? (fun p => p.1 == ip)).map (fun p => p.2)

def updateClient (l : List (Ip × ClientStatus)) (ip : Ip)
    (f : ClientStatus → ClientStatus) : List (Ip × ClientStatus) :=
  l.map (fun p => if p.1 == ip then (p.1, f p.2) else p)

structure BanList where
  reconnect_attempts : Nat
  ban_list : List (Ip × ClientStatus)
  deriving Repr, DecidableEq

/-- `BanList.is_banned`: missing IPs are reported as not banned. -/
def BanList.is_banned (b : BanList) (client_ip : Ip) : Bool :=
  match lookupClient b.ban_list client_ip with
  | some s => s.is_banned
  | none => false

/-- `BanList.success_connect_attempt`: guarded on membership; a no-op for
unknown IPs. -/
def BanList.success_connect_attempt (b : BanList) (client_ip : Ip) : BanList :=
  if (lookupClient b.ban_list client_ip).isSome then
    ⟨b.reconnect_attempts, updateClient b.ban_list client_ip ClientStatus.success_connect_attempt⟩
  else b

/-- `BanList.fail_connect_attempt`: guarded on membership; a no-op for
unknown IPs. -/
def BanList.fail_connect_attempt (b : BanList) (client_ip : Ip) : BanList :=
  if (lookupClient b.ban_list client_ip).isSome then
    ⟨b.reconnect_attempts, updateClient b.ban_list client_ip ClientStatus.fail_connect_attempt⟩
  else b

/-- `BanList.add_client_to_ban_list`: inserts a fresh non-banned entry only
when the IP has no entry yet. -/
def BanList.add_client_to_ban_list (b : BanList) (client_ip : Ip) : BanList :=
  if (lookupClient b.ban_list client_ip).isSome then b
  else ⟨b.reconnect_attempts,
        b.ban_list ++ [(client_ip, mkClientStatus false b.reconnect_attempts)]⟩

/-- `BanList.is_first_time_message`: unknown IPs answer `true` without any
state change; known IPs delegate to the entry's read-once flag. -/
def BanList.is_first_time_message (b : BanList) (client_ip : Ip) : Bool × BanList :=
  match lookupClient b.ban_list client_ip with
  | some s =>
      (s.read_first_time_message.1,
       ⟨b.reconnect_attempts,
        updateClient b.ban_list client_ip (fun s0 => s0.read_first_time_message.2)⟩)
  | none => (true, b)

/-! ### Ban-list file persistence — `update_ban_list_file` / `__get_ban_list`

The file system is threaded explicitly: `Option (List Char)` is the content of
`echowarp_ban_list.txt` (`none` = file absent).  `os.linesep` is modelled for
the POSIX targets as a single newline character. -/

def linesep : Char := '\n'

/-- The banned IPs in dictionary (insertion) order, as the Python list
comprehension produces them. -/
def bannedClients (b : BanList) : List Ip :=
  (b.ban_list.filter (fun p => p.2.is_banned)).map (fun p => p.1)

/-- `BanList.update_ban_list_file`: returns immediately when
`reconnect_attempts <= 0`; writes `os.linesep.flatten(banned_clients)` only when
the banned list is non-empty, otherwise the file is left untouched. -/
def BanList.update_ban_list_file (b : BanList) (file : Option (List Char)) :
    Option (List Char) :=
  if b.reconnect_attempts = 0 then file
  else
    let banned := bannedClients b
    if 0 < banned.length then some (List.intercalate [linesep] banned) else file

/-- Python `str.strip()` on a list of characters. -/
def stripChars (s : List Char) : List Char :=
  ((s.dropWhile Char.isWhitespace).reverse.dropWhile Char.isWhitespace).reverse

/-- Dictionary assignment `d[k] = v`: overwrite in place when present,
append otherwise. -/
def insertAssign (l : List (Ip × ClientStatus)) (ip : Ip) (s : ClientStatus) :
    List (Ip × ClientStatus) :=
  if (lookupClient l ip).isSome then updateClient l ip (fun _ => s) else l ++ [(ip, s)]

/-- `BanList.__get_ban_list`: rebuilds the dictionary from the ban file.  Runs
only when the file exists and `reconnect_attempts > 0`; every stripped
non-empty line becomes a `ClientStatus(True, reconnect_attempts)` entry. -/
def getBanListFromFile (reconnect_attempts : Nat) (file : Option (List Char)) :
    List (Ip × ClientStatus) :=
  match file with
  | none => []
  | some content =>
    if 0 < reconnect_attempts then
      (content.splitOn linesep).foldl
        (fun acc line =>
          let line := stripChars line
          if line ≠ [] then insertAssign acc line (mkClientStatus true reconnect_attempts)
          else acc)
        []
    else []

/-- `BanList.__init__`. -/
def mkBanList (reconnect_attempts : Nat) (file : Option (List Char)) : BanList :=
  ⟨reconnect_attempts, getBanListFromFile reconnect_attempts file⟩

theorem fail_connect_attempt_unbanned_R0 (s : ClientStatus)
    (hb : s.is_banned = false) (hR : s.reconnect_attempts = 0) :
    s.fail_connect_attempt.failed_connect_attempts = s.failed_connect_attempts + 1 ∧
    s.fail_connect_attempt.all_failed_connect_attempts = s.all_failed_connect_attempts + 1 ∧
    s.fail_connect_attempt.is_banned = false := by
  simp [ClientStatus.fail_connect_attempt, hb, hR]

/-- C5: every ledger entry reachable from creation (`add_client_to_ban_list`
creates `ClientStatus(False, R)`, the startup file load creates
`ClientStatus(True, R)` only when `R > 0`) through any sequence of
`fail_connect_attempt` / `success_connect_attempt` / `is_first_time_message`
operations satisfies `banned ⇔ (R > 0 ∧ consecutive_failures ≥ R)`; with
`R = 0` the entry is never banned and a further failed attempt still grows
both failure counters. -/
theorem c5_ban_entry_invariant (R : Nat) (startBanned : Bool) (ops : List EntryOp)
    (hload : startBanned = true → 0 < R) :
    banInvariant (applyEntryOps (mkClientStatus startBanned R) ops) ∧
    (R = 0 →
      (applyEntryOps (mkClientStatus startBanned R) ops).is_banned = false ∧
      (applyEntryOps (mkClientStatus startBanned R) ops).fail_connect_attempt.failed_connect_attempts
        = (applyEntryOps (mkClientStatus startBanned R) ops).failed_connect_attempts + 1 ∧
      (applyEntryOps (mkClientStatus startBanned R) ops).fail_connect_attempt.all_failed_connect_attempts
        = (applyEntryOps (mkClientStatus startBanned R) ops).all_failed_connect_attempts + 1) := by
  have hinv := banInvariant_applyEntryOps (mkClientStatus startBanned R) ops
    (banInvariant_mkClientStatus startBanned R hload)
  refine ⟨hinv, fun hR0 => ?_⟩
  have hRa : (applyEntryOps (mkClientStatus startBanned R) ops).reconnect_attempts = 0 := by
    rw [applyEntryOps_reconnect_attempts]
    simpa [mkClientStatus] using hR0
  have hb : (applyEntryOps (mkClientStatus startBanned R) ops).is_banned = false := by
    rcases Bool.eq_false_or_eq_true (applyEntryOps (mkClientStatus startBanned R) ops).is_banned
      with h | h
    · have := hinv.mp h
      omega
    · exact h
  obtain ⟨h1, h2, _⟩ := fail_connect_attempt_unbanned_R0 _ hb hRa
  exact ⟨hb, h1, h2⟩

theorem c5_witness :
    banInvariant (applyEntryOps (mkClientStatus false 0) [.fail, .fail]) ∧
    (0 = 0 →
      (applyEntryOps (mkClientStatus false 0) [.fail, .fail]).is_banned = false ∧
      (applyEntryOps (mkClientStatus false 0) [.fail, .fail]).fail_connect_attempt.failed_connect_attempts
        = (applyEntryOps (mkClientStatus false 0) [.fail, .fail]).failed_connect_attempts + 1 ∧
      (applyEntryOps (mkClientStatus false 0) [.fail, .fail]).fail_connect_attempt.all_failed_connect_attempts
        = (applyEntryOps (mkClientStatus false 0) [.fail, .fail]).all_failed_connect_attempts + 1) :=
  c5_ban_entry_invariant 0 false [.fail, .fail] (by decide)

/-- C10: for an IP with no ledger entry, `fail_connect_attempt` and
`success_connect_attempt` are silent no-ops, `is_banned` answers `false` and
`is_first_time_message` answers `true` without touching the ledger; only
`add_client_to_ban_list` creates an entry and it never overwrites an
existing one. -/
theorem c10_absent_ip_frame (b : BanList) (ip jp : Ip)
    (habs : lookupClient b.ban_list ip = none)
    (hpres : (lookupClient b.ban_list jp).isSome = true) :
    b.fail_connect_attempt ip = b ∧
    b.success_connect_attempt ip = b ∧
    b.is_banned ip = false ∧
    (b.is_first_time_message ip).1 = true ∧
    (b.is_first_time_message ip).2 = b ∧
    b.add_client_to_ban_list jp = b ∧
    (b.add_client_to_ban_list ip).ban_list
      = b.ban_list ++ [(ip, mkClientStatus false b.reconnect_attempts)] := by
  refine ⟨?_, ?_, ?_, ?_, ?_, ?_, ?_⟩ <;>
    simp [BanList.fail_connect_attempt, BanList.success_connect_attempt,
      BanList.is_banned, BanList.is_first_time_message,
      BanList.add_client_to_ban_list, habs, hpres]

theorem lookupClient_append_single (acc : List (Ip × ClientStatus)) (l l' : Ip)
    (st : ClientStatus) (h : lookupClient acc l' = none) (hne : l' ≠ l) :
    lookupClient (acc ++ [(l, st)]) l' = none := by
  induction acc with
  | nil =>
    have hbeq : (l == l') = false := beq_eq_false_iff_ne.mpr (fun heq => hne heq.symm)
    simp [lookupClient, List.find?, hbeq]
  | cons hd tl ih =>
    simp only [lookupClient, List.cons_append, List.find?] at h ⊢
    rcases hbeq : (hd.1 == l') with _ | _
    · simp only [hbeq] at h ⊢
      exact ih h
    · simp [hbeq] at h

theorem foldl_banfile_fresh (R : Nat) (lines : List Ip) (acc : List (Ip × ClientStatus))
    (hprops : ∀ l ∈ lines, stripChars l = l ∧ l ≠ [])
    (hnodup : lines.Nodup)
    (hfresh : ∀ l ∈ lines, lookupClient acc l = none) :
    lines.foldl
      (fun acc line =>
        let line := stripChars line
        if line ≠ [] then insertAssign acc line (mkClientStatus true R) else acc) acc
      = acc ++ lines.map (fun ip => (ip, mkClientStatus true R)) := by
  induction lines generalizing acc with
  | nil => simp
  | cons l ls ih =>
    obtain ⟨hstrip, hnil⟩ := hprops l (List.mem_cons_self l ls)
    have hfl := hfresh l (List.mem_cons_self l ls)
    simp only [List.foldl_cons, hstrip, hnil, ne_eq, not_false_iff, if_true, if_pos]
    have hstep : insertAssign acc l (mkClientStatus true R) = acc ++ [(l, mkClientStatus true R)] := by
      simp [insertAssign, hfl]
    rw [hstep]
    rw [ih (acc ++ [(l, mkClientStatus true R)])
      (fun l' hl' => hprops l' (List.mem_cons_of_mem _ hl'))
      (List.Nodup.of_cons hnodup)
      (fun l' hl' => lookupClient_append_single acc l l' (mkClientStatus true R)
        (hfresh l' (List.mem_cons_of_mem _ hl'))
        (fun heq => (List.nodup_cons.mp hnodup).1 (heq ▸ hl')))]
    simp

/-- C9 (amended): when `R > 0` and the banned set is non-empty, writing the
ban file and reading it back yields exactly the ledger restricted to its
banned entries, each read back as `BANNED` with both failure counters equal
to `R`.  (The file is NOT rewritten by a mutation that leaves the banned set
empty — see the counterexample.) -/
theorem c9_persistence_roundtrip (b : BanList) (file : Option (List Char))
    (hR : 0 < b.reconnect_attempts)
    (hne : bannedClients b ≠ [])
    (hnodup : (bannedClients b).Nodup)
    (hip : ∀ ip ∈ bannedClients b, ip ≠ [] ∧ stripChars ip = ip ∧ linesep ∉ ip) :
    getBanListFromFile b.reconnect_attempts (b.update_ban_list_file file) =
      (b.ban_list.filter (fun p => p.2.is_banned)).map
        (fun p => (p.1, mkClientStatus true b.reconnect_attempts)) := by
  have hwrite : b.update_ban_list_file file
      = some (List.intercalate [linesep] (bannedClients b)) := by
    unfold BanList.update_ban_list_file
    rw [if_neg (by omega), if_pos (by
      cases hbc : bannedClients b with
      | nil => exact absurd hbc hne
      | cons x xs => simp)]
  rw [hwrite]
  simp only [getBanListFromFile]
  rw [if_pos hR]
  rw [List.splitOn_intercalate (bannedClients b) linesep (fun l hl => (hip l hl).2.2) hne]
  rw [foldl_banfile_fresh b.reconnect_attempts (bannedClients b) []
    (fun l hl => ⟨(hip l hl).2.1, (hip l hl).1⟩) hnodup
    (fun l _ => rfl)]
  simp [bannedClients, List.map_map]

theorem c9_roundtrip_witness :
    getBanListFromFile (⟨2, [(['a'], mkClientStatus true 2)]⟩ : BanList).reconnect_attempts
        ((⟨2, [(['a'], mkClientStatus true 2)]⟩ : BanList).update_ban_list_file none)
      = ((⟨2, [(['a'], mkClientStatus true 2)]⟩ : BanList).ban_list.filter
          (fun p => p.2.is_banned)).map
          (fun p => (p.1,
            mkClientStatus true (⟨2, [(['a'], mkClientStatus true 2)]⟩ : BanList).reconnect_attempts)) :=
  c9_persistence_roundtrip ⟨2, [(['a'], mkClientStatus true 2)]⟩ none
    (by decide) (by decide) (by decide) (by decide)

/-- C9 counterexample: a `success_connect_attempt` that empties the banned
set is a mutation that changes the banned set, yet `update_ban_list_file`
leaves the file untouched (its guard `len(banned_clients) > 0` fails), so
reading the file back still yields the stale banned entry rather than the
(empty) restriction of the mutated ledger. -/
theorem c9_counterexample :
    bannedClients (BanList.success_connect_attempt ⟨2, [(['a'], mkClientStatus true 2)]⟩ ['a']) = [] ∧
    (BanList.success_connect_attempt ⟨2, [(['a'], mkClientStatus true 2)]⟩ ['a']).update_ban_list_file
        (BanList.update_ban_list_file ⟨2, [(['a'], mkClientStatus true 2)]⟩ none)
      = BanList.update_ban_list_file ⟨2, [(['a'], mkClientStatus true 2)]⟩ none ∧
    getBanListFromFile 2
        ((BanList.success_connect_attempt ⟨2, [(['a'], mkClientStatus true 2)]⟩ ['a']).update_ban_list_file
          (BanList.update_ban_list_file ⟨2, [(['a'], mkClientStatus true 2)]⟩ none)) ≠ [] := by
  decide

theorem c10_witness :
    (⟨3, [(['a'], mkClientStatus false 3)]⟩ : BanList).fail_connect_attempt ['b']
      = ⟨3, [(['a'], mkClientStatus false 3)]⟩ ∧
    (⟨3, [(['a'], mkClientStatus false 3)]⟩ : BanList).success_connect_attempt ['b']
      = ⟨3, [(['a'], mkClientStatus false 3)]⟩ ∧
    (⟨3, [(['a'], mkClientStatus false 3)]⟩ : BanList).is_banned ['b'] = false ∧
    ((⟨3, [(['a'], mkClientStatus false 3)]⟩ : BanList).is_first_time_message ['b']).1 = true ∧
    ((⟨3, [(['a'], mkClientStatus false 3)]⟩ : BanList).is_first_time_message ['b']).2
      = ⟨3, [(['a'], mkClientStatus false 3)]⟩ ∧
    (⟨3, [(['a'], mkClientStatus false 3)]⟩ : BanList).add_client_to_ban_list ['a']
      = ⟨3, [(['a'], mkClientStatus false 3)]⟩ ∧
    ((⟨3, [(['a'], mkClientStatus false 3)]⟩ : BanList).add_client_to_ban_list ['b']).ban_list
      = [(['a'], mkClientStatus false 3)] ++
        [(['b'], mkClientStatus false (⟨3, [(['a'], mkClientStatus false 3)]⟩ : BanList).reconnect_attempts)] :=
  c10_absent_ip_frame ⟨3, [(['a'], mkClientStatus false 3)]⟩ ['b'] ['a']
    (by decide) (by decide)

/-! ## Message codec — src/echowarp/models/json_message.py

`json.dumps`/`json.loads` are modelled at the level of JSON values: the
composition `loads(dumps(v).encode())` is the identity on well-formed values,
so encoding produces a `Json` object and decoding consumes one.
`JSONMessage.__init__` performs dictionary lookups that raise `KeyError`
(caught and re-raised) on a missing key; it never inspects any other key and
never type-checks a value, so decoding is `Option`-valued over lookups. -/

inductive Json where
  | null : Json
  | jbool : Bool → Json
  | jint : Int → Json
  | jstr : String → Json
  | jobj : List (String × Json) → Json

/-- Modelled from the spec: `version.__comparability_version__` (the `version`
module is imported by the code but is not under src/).  Every encoded message
carries this string (§3: every message carries `comparability_version`); its
concrete value is irrelevant to the claims. -/
def utilComparabilityVersion : String := "compat-version"

def optIntToJson : Option Int → Json
  | none => Json.null
  | some n => Json.jint n

/-- `JSONMessage.encode_message_to_json_bytes`: normalizes any
`reconnect_attempts <= 0` to `None` before building the five-key object. -/
def encode_message_to_json_bytes (message : String) (response_code : Int)
    (failed_connections : Option Int) (reconnect_attempts : Option Int) : Json :=
  let ra := match reconnect_attempts with
    | some n => if n ≤ 0 then none else some n
    | none => none
  Json.jobj [("message", Json.jstr message),
             ("response_code", Json.jint response_code),
             ("comparability_version", Json.jstr utilComparabilityVersion),
             ("failed_connections", optIntToJson failed_connections),
             ("reconnect_attempts", optIntToJson ra)]

/-- Dictionary lookup `d[k]` on a decoded JSON object. -/
def jsonLookup (fields : List (String × Json)) (key : String) : Option Json :=
  (fields.find? (fun p => p.1 == key)).map (fun p => p.2)

/-- The five attributes `JSONMessage.__init__` assigns, kept as raw JSON
values exactly as the Python constructor stores whatever `json.loads`
produced. -/
structure JSONMessageFields where
  message : Json
  response_code : Json
  version : Json
  failed_connections : Json
  reconnect_attempts : Json

/-- `JSONMessage.__init__`: fails when the input is not a JSON object or when
any of the five required keys is absent; ignores every other key. -/
def decodeJSONMessage (j : Json) : Option JSONMessageFields :=
  match j with
  | Json.jobj fields =>
    (jsonLookup fields "message").bind (fun m =>
    (jsonLookup fields "response_code").bind (fun rc =>
    (jsonLookup fields "comparability_version").bind (fun v =>
    (jsonLookup fields "failed_connections").bind (fun fc =>
    (jsonLookup fields "reconnect_attempts").map (fun ra =>
      ⟨m, rc, v, fc, ra⟩)))))
  | _ => none

/-- C7 (amended): the codec round-trips field by field whenever
`reconnect_attempts` is absent or strictly positive; the encoder rewrites any
`reconnect_attempts <= 0` (including 0) to JSON `null`, which decodes as
absent rather than as the integer it was. -/
theorem c7_codec_roundtrip (message : String) (response_code : Int)
    (failed_connections reconnect_attempts : Option Int)
    (h : reconnect_attempts = none ∨ ∃ n, reconnect_attempts = some n ∧ 0 < n) :
    decodeJSONMessage
        (encode_message_to_json_bytes message response_code failed_connections reconnect_attempts)
      = some ⟨Json.jstr message, Json.jint response_code,
              Json.jstr utilComparabilityVersion,
              optIntToJson failed_connections, optIntToJson reconnect_attempts⟩ := by
  rcases h with h | ⟨n, rfl, hn⟩
  · subst h
    rfl
  · simp only [encode_message_to_json_bytes, if_neg (by omega : ¬ n ≤ 0)]
    rfl

theorem c7_witness :
    decodeJSONMessage (encode_message_to_json_bytes "Accepted" 202 (some 3) (some 5))
      = some ⟨Json.jstr "Accepted", Json.jint 202, Json.jstr utilComparabilityVersion,
              optIntToJson (some 3), optIntToJson (some 5)⟩ :=
  c7_codec_roundtrip "Accepted" 202 (some 3) (some 5) (Or.inr ⟨5, rfl, by omega⟩)

/-- C7 counterexample: a well-formed message whose `reconnect_attempts` field
is the integer 0 does not round-trip: the decoder sees JSON `null` in that
field, not `0`. -/
theorem c7_counterexample :
    (decodeJSONMessage (encode_message_to_json_bytes "Accepted" 202 (some 3) (some 0))).map
        JSONMessageFields.reconnect_attempts = some Json.null ∧
    some Json.null ≠ some (Json.jint 0) := by
  refine ⟨rfl, ?_⟩
  intro h
  simp at h

/-- C8 (amended): the decoder fails exactly when one of the five required
keys (`message`, `response_code`, `comparability_version`,
`failed_connections`, `reconnect_attempts`) is missing; keys outside the
schema are silently ignored, not rejected. -/
theorem c8_decoder_strictness (fields : List (String × Json)) :
    (decodeJSONMessage (Json.jobj fields)).isSome =
      ((jsonLookup fields "message").isSome &&
       (jsonLookup fields "response_code").isSome &&
       (jsonLookup fields "comparability_version").isSome &&
       (jsonLookup fields "failed_connections").isSome &&
       (jsonLookup fields "reconnect_attempts").isSome) := by
  simp only [decodeJSONMessage]
  rcases jsonLookup fields "message" with _ | m <;>
    rcases jsonLookup fields "response_code" with _ | rc <;>
    rcases jsonLookup fields "comparability_version" with _ | v <;>
    rcases jsonLookup fields "failed_connections" with _ | fc <;>
    rcases jsonLookup fields "reconnect_attempts" with _ | ra <;>
    rfl

/-- C8 counterexample: an input carrying a key outside the schema is decoded
successfully — the decoder does not reject unknown fields. -/
theorem c8_counterexample :
    decodeJSONMessage (Json.jobj
      [("message", Json.jstr "Accepted"), ("response_code", Json.jint 202),
       ("comparability_version", Json.jstr utilComparabilityVersion),
       ("failed_connections", Json.null), ("reconnect_attempts", Json.null),
       ("unknown_field", Json.jbool true)])
      = some ⟨Json.jstr "Accepted", Json.jint 202, Json.jstr utilComparabilityVersion,
              Json.null, Json.null⟩ := by
  rfl

/-! ## Crypto Engine — src/echowarp/services/crypto_manager.py

Byte strings are lists of Nat.  The AES-256 block cipher under the fixed
session key is an abstract pair `E`/`D` of functions on 16-byte blocks
(library code, not in this repository), and SHA-256 is an abstract `h`
producing 32-byte digests; the CBC chaining, PKCS#7 padding and the
hash-prefix framing are the repository's pipeline and are modelled
concretely. -/

def xorBytes (a b : List Nat) : List Nat := List.zipWith (fun x y => x ^^^ y) a b

/-- `sym_padding.PKCS7(128).padder()`: pad to a positive multiple of 16
bytes, each padding byte holding the padding length. -/
def pkcs7Pad (data : List Nat) : List Nat :=
  let n := 16 - data.length % 16
  data ++ List.replicate n n

/-- `sym_padding.PKCS7(128).unpadder()`: validates and strips the padding. -/
def pkcs7Unpad (data : List Nat) : Option (List Nat) :=
  match data.getLast? with
  | none => none
  | some n =>
    if n = 0 ∨ 16 < n ∨ data.length < n ∨ data.length % 16 ≠ 0 then none
    else if (data.drop (data.length - n)).all (fun x => x == n) then
      some (data.take (data.length - n))
    else none

/-- Split a byte string into consecutive 16-byte blocks. -/
def chunk16 (l : List Nat) : List (List Nat) :=
  match l with
  | [] => []
  | a :: rest => ((a :: rest).take 16) :: chunk16 ((a :: rest).drop 16)
termination_by l.length
decreasing_by simp; omega

/-- AES-CBC encryption chaining: each plaintext block is XORed with the
previous ciphertext block (initially the IV) before the block cipher. -/
def cbcEncryptBlocks (E : List Nat → List Nat) : List Nat → List (List Nat) → List (List Nat)
  | _, [] => []
  | prev, b :: bs =>
    let c := E (xorBytes b prev)
    c :: cbcEncryptBlocks E c bs

/-- AES-CBC decryption chaining. -/
def cbcDecryptBlocks (D : List Nat → List Nat) : List Nat → List (List Nat) → List (List Nat)
  | _, [] => []
  | prev, c :: cs => xorBytes (D c) prev :: cbcDecryptBlocks D c cs

/-- `CryptoManager.__encrypt_data_aes`: PKCS7-pad, then AES-CBC under the
fixed per-session key and IV. -/
def encrypt_data_aes (E : List Nat → List Nat) (iv data : List Nat) : List Nat :=
  (cbcEncryptBlocks E iv (chunk16 (pkcs7Pad data))).flatten

/-- `CryptoManager.__decrypt_data_aes`: AES-CBC decrypt (whole blocks only),
then strip the PKCS7 padding. -/
def decrypt_data_aes (D : List Nat → List Nat) (iv data : List Nat) : Option (List Nat) :=
  if data.length % 16 = 0 then
    pkcs7Unpad ((cbcDecryptBlocks D iv (chunk16 data)).flatten)
  else none

/-- `CryptoManager.__calculate_hash_to_data`: prepend `SHA256(data)`. -/
def calculate_hash_to_data (h : List Nat → List Nat) (data : List Nat) : List Nat :=
  h data ++ data

/-- `CryptoManager.__compare_hash_and_get_data`: split off the 32-byte
prefix, recompute and compare. -/
def compare_hash_and_get_data (h : List Nat → List Nat) (message : List Nat) :
    Option (List Nat) :=
  let received := message.take 32
  let data := message.drop 32
  if received = h data then some data else none

/-- `CryptoManager.encrypt_aes_and_sign_data`: hash prefix when integrity
control is on, then AES when encryption is on. -/
def encrypt_aes_and_sign_data (is_integrity_control is_ssl : Bool)
    (E h : List Nat → List Nat) (iv data : List Nat) : List Nat :=
  let data1 := if is_integrity_control then calculate_hash_to_data h data else data
  if is_ssl then encrypt_data_aes E iv data1 else data1

/-- `CryptoManager.decrypt_aes_and_verify_data`: AES first when encryption is
on, then hash verification when integrity control is on. -/
def decrypt_aes_and_verify_data (is_integrity_control is_ssl : Bool)
    (D h : List Nat → List Nat) (iv data : List Nat) : Option (List Nat) :=
  (if is_ssl then decrypt_data_aes D iv data else some data).bind
    (fun d => if is_integrity_control then compare_hash_and_get_data h d else some d)

theorem xorBytes_length (a b : List Nat) :
    (xorBytes a b).length = min a.length b.length := by
  simp [xorBytes]

theorem xorBytes_xorBytes_cancel (a p : List Nat) (h : a.length ≤ p.length) :
    xorBytes (xorBytes a p) p = a := by
  induction a generalizing p with
  | nil => simp [xorBytes]
  | cons x xs ih =>
    cases p with
    | nil => simp at h
    | cons y ys =>
      simp only [xorBytes, List.zipWith_cons_cons] at *
      rw [Nat.xor_cancel_right]
      rw [ih ys (by simpa using h)]

theorem chunk16_nil : chunk16 ([] : List Nat) = [] := by
  rw [chunk16.eq_def]

theorem chunk16_cons (a : Nat) (rest : List Nat) :
    chunk16 (a :: rest) = ((a :: rest).take 16) :: chunk16 ((a :: rest).drop 16) := by
  rw [chunk16.eq_def]

theorem flatten_chunk16_aux (n : Nat) :
    ∀ l : List Nat, l.length ≤ n → (chunk16 l).flatten = l := by
  induction n with
  | zero =>
    intro l hl
    have hln : l = [] := List.length_eq_zero.mp (by omega)
    subst hln
    simp [chunk16_nil]
  | succ n ih =>
    intro l hl
    cases l with
    | nil => simp [chunk16_nil]
    | cons a rest =>
      rw [chunk16_cons, List.flatten_cons]
      rw [ih ((a :: rest).drop 16) (by simp at hl ⊢; omega)]
      exact List.take_append_drop 16 (a :: rest)

theorem flatten_chunk16 (l : List Nat) : (chunk16 l).flatten = l :=
  flatten_chunk16_aux l.length l le_rfl

theorem chunk16_blocks_length_aux (n : Nat) :
    ∀ l : List Nat, l.length ≤ n → l.length % 16 = 0 → ∀ b ∈ chunk16 l, b.length = 16 := by
  induction n with
  | zero =>
    intro l hl _ b hb
    have hln : l = [] := List.length_eq_zero.mp (by omega)
    subst hln
    simp [chunk16_nil] at hb
  | succ n ih =>
    intro l hl hmod b hb
    cases l with
    | nil => simp [chunk16_nil] at hb
    | cons a rest =>
      rw [chunk16_cons] at hb
      rcases List.mem_cons.mp hb with rfl | hb
      · simp only [List.length_take, List.length_cons]
        simp only [List.length_cons] at hmod
        omega
      · exact ih ((a :: rest).drop 16)
          (by simp at hl ⊢; omega)
          (by simp at hmod ⊢; omega) b hb

theorem chunk16_blocks_length (l : List Nat) (hmod : l.length % 16 = 0) :
    ∀ b ∈ chunk16 l, b.length = 16 :=
  chunk16_blocks_length_aux l.length l le_rfl hmod

theorem chunk16_flatten (blocks : List (List Nat))
    (h : ∀ b ∈ blocks, b.length = 16) : chunk16 blocks.flatten = blocks := by
  induction blocks with
  | nil => simp [chunk16_nil]
  | cons b bs ih =>
    have hb : b.length = 16 := h b (List.mem_cons_self b bs)
    have ht : (b ++ bs.flatten).take 16 = b := by
      rw [← hb]
      exact List.take_left b bs.flatten
    have hd : (b ++ bs.flatten).drop 16 = bs.flatten := by
      rw [← hb]
      exact List.drop_left b bs.flatten
    cases b with
    | nil => simp at hb
    | cons x xs =>
      rw [List.flatten_cons, List.cons_append, chunk16_cons, ← List.cons_append, ht, hd,
        ih (fun c hc => h c (List.mem_cons_of_mem _ hc))]

theorem cbcEncryptBlocks_length (E : List Nat → List Nat)
    (hElen : ∀ b, b.length = 16 → (E b).length = 16) :
    ∀ (bs : List (List Nat)) (prev : List Nat), prev.length = 16 →
      (∀ b ∈ bs, b.length = 16) →
      ∀ c ∈ cbcEncryptBlocks E prev bs, c.length = 16 := by
  intro bs
  induction bs with
  | nil => intro prev _ _ c hc; simp [cbcEncryptBlocks] at hc
  | cons b bs ih =>
    intro prev hprev hbs c hc
    have hb : b.length = 16 := hbs b (List.mem_cons_self b bs)
    have hxor : (xorBytes b prev).length = 16 := by
      rw [xorBytes_length, hprev, hb]
      simp
    have hEb : (E (xorBytes b prev)).length = 16 := hElen _ hxor
    simp only [cbcEncryptBlocks] at hc
    rcases List.mem_cons.mp hc with rfl | hc
    · exact hEb
    · exact ih (E (xorBytes b prev)) hEb (fun x hx => hbs x (List.mem_cons_of_mem _ hx)) c hc

theorem cbcDecrypt_cbcEncrypt (E D : List Nat → List Nat)
    (hED : ∀ b, b.length = 16 → D (E b) = b)
    (hElen : ∀ b, b.length = 16 → (E b).length = 16) :
    ∀ (bs : List (List Nat)) (prev : List Nat), prev.length = 16 →
      (∀ b ∈ bs, b.length = 16) →
      cbcDecryptBlocks D prev (cbcEncryptBlocks E prev bs) = bs := by
  intro bs
  induction bs with
  | nil => intro prev _ _; rfl
  | cons b bs ih =>
    intro prev hprev hbs
    have hb : b.length = 16 := hbs b (List.mem_cons_self b bs)
    have hxor : (xorBytes b prev).length = 16 := by
      rw [xorBytes_length, hprev, hb]
      simp
    simp only [cbcEncryptBlocks, cbcDecryptBlocks]
    rw [hED _ hxor]
    rw [xorBytes_xorBytes_cancel b prev (by omega)]
    rw [ih (E (xorBytes b prev)) (hElen _ hxor)
      (fun x hx => hbs x (List.mem_cons_of_mem _ hx))]

theorem flatten_blocks_length_mod (blocks : List (List Nat))
    (h : ∀ b ∈ blocks, b.length = 16) : blocks.flatten.length % 16 = 0 := by
  induction blocks with
  | nil => simp
  | cons b bs ih =>
    have hb : b.length = 16 := h b (List.mem_cons_self b bs)
    have := ih (fun c hc => h c (List.mem_cons_of_mem _ hc))
    simp only [List.flatten_cons, List.length_append, hb]
    omega

theorem getLast?_replicate_succ (k v : Nat) :
    (List.replicate (k + 1) v).getLast? = some v := by
  induction k with
  | zero => rfl
  | succ k ih =>
    rw [List.replicate_succ]
    rw [List.getLast?_cons]
    simp only [List.replicate_succ] at ih ⊢
    simp [ih]

theorem pkcs7Unpad_pkcs7Pad (d : List Nat) : pkcs7Unpad (pkcs7Pad d) = some d := by
  have hr : d.length % 16 < 16 := Nat.mod_lt _ (by omega)
  set n := 16 - d.length % 16 with hn
  have hn1 : 1 ≤ n := by omega
  have hn16 : n ≤ 16 := by omega
  have hpad : pkcs7Pad d = d ++ List.replicate n n := rfl
  have hlen : (pkcs7Pad d).length = d.length + n := by simp [hpad]
  have hlast : (pkcs7Pad d).getLast? = some n := by
    rw [hpad, List.getLast?_append]
    obtain ⟨k, hk⟩ : ∃ k, n = k + 1 := ⟨n - 1, by omega⟩
    rw [hk, getLast?_replicate_succ k (k + 1)]
    rfl
  have hmod : (pkcs7Pad d).length % 16 = 0 := by
    rw [hlen]
    omega
  have hstep : pkcs7Unpad (pkcs7Pad d) =
      (if n = 0 ∨ 16 < n ∨ (pkcs7Pad d).length < n ∨ (pkcs7Pad d).length % 16 ≠ 0 then none
       else if ((pkcs7Pad d).drop ((pkcs7Pad d).length - n)).all (fun x => x == n) then
         some ((pkcs7Pad d).take ((pkcs7Pad d).length - n))
       else none) := by
    unfold pkcs7Unpad
    rw [hlast]
  rw [hstep]
  rw [if_neg (by push_neg; refine ⟨by omega, by omega, by omega, hmod⟩)]
  have hdrop : (pkcs7Pad d).drop ((pkcs7Pad d).length - n) = List.replicate n n := by
    rw [hlen, hpad]
    have : d.length + n - n = d.length := by omega
    rw [this]
    exact List.drop_left d (List.replicate n n)
  have htake : (pkcs7Pad d).take ((pkcs7Pad d).length - n) = d := by
    rw [hlen, hpad]
    have : d.length + n - n = d.length := by omega
    rw [this]
    exact List.take_left d (List.replicate n n)
  rw [hdrop, htake]
  rw [if_pos (by simp)]

theorem decrypt_encrypt_data_aes (E D : List Nat → List Nat) (iv d : List Nat)
    (hED : ∀ b, b.length = 16 → D (E b) = b)
    (hElen : ∀ b, b.length = 16 → (E b).length = 16)
    (hiv : iv.length = 16) :
    decrypt_data_aes D iv (encrypt_data_aes E iv d) = some d := by
  have hpadmod : (pkcs7Pad d).length % 16 = 0 := by
    have hr : d.length % 16 < 16 := Nat.mod_lt _ (by omega)
    simp only [pkcs7Pad, List.length_append, List.length_replicate]
    omega
  have hblocks : ∀ b ∈ chunk16 (pkcs7Pad d), b.length = 16 :=
    chunk16_blocks_length (pkcs7Pad d) hpadmod
  have hcipher : ∀ c ∈ cbcEncryptBlocks E iv (chunk16 (pkcs7Pad d)), c.length = 16 :=
    cbcEncryptBlocks_length E hElen (chunk16 (pkcs7Pad d)) iv hiv hblocks
  unfold decrypt_data_aes encrypt_data_aes
  rw [if_pos (flatten_blocks_length_mod _ hcipher)]
  rw [chunk16_flatten _ hcipher]
  rw [cbcDecrypt_cbcEncrypt E D hED hElen (chunk16 (pkcs7Pad d)) iv hiv hblocks]
  rw [flatten_chunk16]
  exact pkcs7Unpad_pkcs7Pad d

theorem compare_calculate_hash (h : List Nat → List Nat)
    (hh : ∀ x, (h x).length = 32) (d : List Nat) :
    compare_hash_and_get_data h (calculate_hash_to_data h d) = some d := by
  unfold compare_hash_and_get_data calculate_hash_to_data
  have htake : (h d ++ d).take 32 = h d := by
    rw [← hh d]
    exact List.take_left (h d) d
  have hdrop : (h d ++ d).drop 32 = d := by
    rw [← hh d]
    exact List.drop_left (h d) d
  simp [htake, hdrop]

/-- C1: for every byte string `f` and fixed session configuration — block
cipher `E` with inverse `D` (the AES-256 instance under the session key), IV,
SHA-256 `h`, and the two flags applied identically on both sides —
`decrypt_aes_and_verify_data (encrypt_aes_and_sign_data f) = f`; in
particular with both flags off the pipeline is the identity on `f`. -/
theorem c1_pipeline_roundtrip (is_integrity_control is_ssl : Bool)
    (E D h : List Nat → List Nat) (iv f : List Nat)
    (hED : ∀ b, b.length = 16 → D (E b) = b)
    (hElen : ∀ b, b.length = 16 → (E b).length = 16)
    (hh : ∀ d, (h d).length = 32)
    (hiv : iv.length = 16) :
    decrypt_aes_and_verify_data is_integrity_control is_ssl D h iv
      (encrypt_aes_and_sign_data is_integrity_control is_ssl E h iv f) = some f := by
  cases is_ssl <;> cases is_integrity_control <;>
    simp [encrypt_aes_and_sign_data, decrypt_aes_and_verify_data,
      decrypt_encrypt_data_aes E D iv _ hED hElen hiv,
      compare_calculate_hash h hh]

theorem c1_witness :
    decrypt_aes_and_verify_data true true (fun x => x) (fun _ => List.replicate 32 0)
        (List.replicate 16 0)
        (encrypt_aes_and_sign_data true true (fun x => x) (fun _ => List.replicate 32 0)
          (List.replicate 16 0) [1, 2, 3])
      = some [1, 2, 3] :=
  c1_pipeline_roundtrip true true (fun x => x) (fun x => x) (fun _ => List.replicate 32 0)
    (List.replicate 16 0) [1, 2, 3]
    (fun _ _ => rfl) (fun _ hb => hb) (fun _ => by simp) (by simp)

/-! ## Transport — src/echowarp/auth_and_heartbeat/transport_base.py,
transport_server.py, transport_client.py -/

structure TransportPorts where
  tcp_port : Int
  udp_port : Int
  deriving Repr, DecidableEq

/-- `TransportBase.__init__`: `self._tcp_port = settings.udp_port - 1`,
`self._udp_port = settings.udp_port`. -/
def transportBaseInit (udp_port : Int) : TransportPorts :=
  ⟨udp_port - 1, udp_port⟩

/-- `TransportServer._initialize_socket`: the server's TCP listening socket
is bound with `self._server_tcp_socket.bind(('', self._udp_port))`. -/
def serverTcpBindPort (t : TransportPorts) : Int := t.udp_port

/-- `TransportClient._established_connection`: the client connects its TCP
socket to `(self._server_address, self._tcp_port)`. -/
def clientTcpConnectPort (t : TransportPorts) : Int := t.tcp_port

/-- C2 evaluation: for every user-chosen port `P` the base computes
`_tcp_port = P - 1` and the client connects to `P - 1`, but the server binds
its TCP listening socket to `P` (the UDP port), not `P - 1`. -/
theorem c2_server_tcp_bind_port (P : Int) :
    serverTcpBindPort (transportBaseInit P) = P ∧
    clientTcpConnectPort (transportBaseInit P) = P - 1 ∧
    (transportBaseInit P).udp_port = P :=
  ⟨rfl, rfl, rfl⟩

/-- `TransportBase.__perform_reconnect_attempts`, with `stop_util` never set:
the `while not stop_util and attempt < reconnect_attempt` loop, where
`connectOk i` is the outcome of the i-th `_established_connection` call;
returns the final `attempt` counter (failure increments, success breaks). -/
def reconnectLoopFrom (R : Nat) (connectOk : Nat → Bool) (attempt : Nat) : Nat :=
  if h : attempt < R then
    if connectOk attempt then attempt
    else reconnectLoopFrom R connectOk (attempt + 1)
  else attempt
termination_by R - attempt
decreasing_by omega

inductive ReconnectOutcome where
  | connected
  | shutdownRaised
  deriving Repr, DecidableEq

/-- After the loop, `if attempt >= self._reconnect_attempt: self._shutdown()`
and `raise RuntimeError("Maximum reconnect attempts reached...")`. -/
def performReconnectAttempts (R : Nat) (connectOk : Nat → Bool) : ReconnectOutcome :=
  if R ≤ reconnectLoopFrom R connectOk 0 then .shutdownRaised else .connected

/-- C3 evaluation: with `R = 0` the loop guard `attempt < 0` is false at
once, the loop body never runs, and the post-loop check `0 >= 0` shuts the
transport down — for every pattern of connection outcomes, even an
immediately successful one.  The code's own log helper
(`__get_str_reconnect_attempt`) special-cases `R == 0` with an unbounded
attempt display, documenting that unlimited retries were intended. -/
theorem c3_r0_immediate_shutdown (connectOk : Nat → Bool) :
    performReconnectAttempts 0 connectOk = ReconnectOutcome.shutdownRaised := by
  have h0 : reconnectLoopFrom 0 connectOk 0 = 0 := by
    rw [reconnectLoopFrom]
    simp
  simp [performReconnectAttempts, h0]

/-- The two shared threading events.  `stop_stream` set = streamer running
(the streamer blocks on `stop_stream.wait()` while cleared). -/
structure TransportEvents where
  stop_util : Bool
  stop_stream : Bool
  deriving Repr, DecidableEq

/-- `TransportBase.__reconnect` as a transformer of the two events:
`_print_pause_udp_listener_and_pause_stream` clears `stop_stream` on entry;
on the `__retry_send_heartbeat` success path the method returns at once;
otherwise the socket is re-established (`reestablishOk` abstracts that path —
on its failure the `RuntimeError` handler runs `_shutdown`, which sets both
events) and then `_print_udp_listener_and_start_stream` sets `stop_stream`
unless `stop_util` is set, in which case `_shutdown` runs. -/
def reconnectEvents (ev : TransportEvents) (is_client_exit retryOk reestablishOk : Bool) :
    TransportEvents :=
  let ev1 : TransportEvents := ⟨ev.stop_util, false⟩
  if ¬ is_client_exit ∧ retryOk then ev1
  else if ¬ reestablishOk then ⟨true, true⟩
  else if ¬ ev1.stop_util then ⟨ev1.stop_util, true⟩
  else ⟨true, true⟩

/-- C4 evaluation: when the single in-place heartbeat round-trip succeeds,
`__reconnect` returns with `stop_stream` still cleared — the streamer stays
blocked at its gate — whereas the full re-establish path does set
`stop_stream` back.  The claim (resume on retry success) matches the spec's
step "if it succeeds, resume", which the code does not implement. -/
theorem c4_retry_success_leaves_stream_paused (s reestablishOk : Bool) :
    reconnectEvents ⟨false, s⟩ false true reestablishOk = ⟨false, false⟩ ∧
    reconnectEvents ⟨false, s⟩ false false true = ⟨false, true⟩ := by
  cases s <;> cases reestablishOk <;> exact ⟨rfl, rfl⟩

/-- Result of `TransportServer.__authenticate_client` on one connection. -/
inductive AuthResult where
  | forbidden
  | unauthorized
  | conflict
  | accepted
  deriving Repr, DecidableEq

/-- `TransportServer.__authenticate_client` decision sequence: each failing
check calls `__form_error_message`, which sends the error response and raises
`ValueError`, so the first failing check wins.  The source checks the ban
ledger first (403), then the password (401), then the version (409). -/
def authenticateClient (isBanned passwordOk versionOk : Bool) : AuthResult :=
  if isBanned then .forbidden
  else if ¬ passwordOk then .unauthorized
  else if ¬ versionOk then .conflict
  else .accepted

/-- C6 counterexample: a banned client presenting a wrong password receives
FORBIDDEN (403), not UNAUTHORIZED (401) — the ban check runs first. -/
theorem c6_counterexample :
    authenticateClient true false true = AuthResult.forbidden ∧
    AuthResult.forbidden ≠ AuthResult.unauthorized := by
  decide

/-- C6 (amended): the authentication checks run in the order banned (403),
then password (401), then version (409); a banned peer always receives 403
regardless of its password or version. -/
theorem c6_auth_check_order :
    (∀ p v, authenticateClient true p v = AuthResult.forbidden) ∧
    (∀ v, authenticateClient false false v = AuthResult.unauthorized) ∧
    authenticateClient false true false = AuthResult.conflict ∧
    authenticateClient false true true = AuthResult.accepted := by
  decide

end EchoWarp
